import Mathlib

/-!
Shallow embedding of `src/mnist_inference/mnist_inference.py` (`infer_loop`).

The inference driver pulls samples from an external source, invokes an
external model, writes each predicted class to an output file, accumulates a
per-class histogram, feeds a confidence tracker, and on a record-count cadence
emits an aggregate report.  The external collaborators (sample source, model,
output stream, confidence tracker, mlops telemetry) are modelled as per-
iteration oracles (`IterBehavior`): each call site either succeeds with a
value or raises a Python exception (`EOFError` or any other exception).
Observable effects (writes, prints, histogram updates, report emissions,
closing the sink) are recorded in an event trace.
-/

/-- A Python exception as seen by the driver: `EOFError` is distinguished
because the loop body is wrapped in `try: ... except EOFError:`. -/
inductive PyErr where
  | eofError
  | other (msg : String)
deriving DecidableEq, Repr

/-- Observable events of one run of `infer_loop`, in chronological order. -/
inductive Event where
  /-- `output.write` of the prediction rendered as decimal text followed by a
  newline — one line appended to the sink. -/
  | writeLine (s : String)
  /-- `prediction_hist[prediction] += 1` succeeded for class `c`. -/
  | histRecord (c : ℕ)
  /-- `conf_tracker.check_confidence(confidence, sample)`. -/
  | confUpdate (conf : ℚ) (sample : ℕ)
  /-- a `print(...)` to stdout. -/
  | printMsg (s : String)
  /-- the mlops/telemetry report block plus `conf_tracker.report_confidence`:
  running-total metric, table row and bar graph from the histogram snapshot,
  keyed by the running total. -/
  | reportEmit (snapshot : List ℕ) (total : ℕ)
deriving DecidableEq, Repr

/-- Oracle for one iteration of the loop: outcome of each external call site,
in the order the body reaches them.  `source` is `input.get_next_input()`
(the sample is an opaque id; the unused label is dropped), `model` is
`model.infer(sample)`, `write` is `output.write(...)`, `conf` is
`conf_tracker.check_confidence(...)`, `report` covers the mlops `set_stat`
calls and `conf_tracker.report_confidence(...)`. -/
structure IterBehavior where
  source : Except PyErr ℕ
  model : Except PyErr (List ℚ)
  write : Except PyErr Unit
  conf : Except PyErr Unit
  report : Except PyErr Unit

/-- Mutable state of `infer_loop`: the counter and histogram locals, how often
`output.close()` has run, and the trace of observable events. -/
structure LoopState where
  total : ℕ
  hist : List ℕ
  closeCount : ℕ
  events : List Event
deriving DecidableEq, Repr

/-- `ny.argmax` scan: keep the current best value and its index, replacing it
only on a strictly greater value, so ties keep the earliest index. -/
def argmaxAux (bestVal : ℚ) (bestIdx idx : ℕ) : List ℚ → ℕ
  | [] => bestIdx
  | x :: xs => if bestVal < x then argmaxAux x idx (idx + 1) xs
               else argmaxAux bestVal bestIdx (idx + 1) xs

/-- `ny.argmax` on a nonempty list: index of the first occurrence of the
maximum (numpy returns the first occurrence on ties).  Junk value 0 on `[]`
(numpy raises there; the caller guards that case). -/
def argmax : List ℚ → ℕ
  | [] => 0
  | x :: xs => argmaxAux x 0 1 xs

/-- `confidence = inference[prediction] * 100` from the source. -/
def confidenceOf (v : List ℚ) : ℚ := v.getD (argmax v) 0 * 100

/-- The hard-coded label list `categories = ["0", ..., "9"]` (exactly ten
entries, independent of `model.get_num_categories()`). -/
def categories : List String :=
  ["0", "1", "2", "3", "4", "5", "6", "7", "8", "9"]

/-- The `print` lines of the report loop
`for i in range(0, model.get_num_categories())`: it emits one line per
category until it either finishes (`C ≤ 10`) or `categories[i]` raises
`IndexError` at `i = 10`, so exactly `min C 10` lines are printed. -/
def printCatsEvents (C : ℕ) (hist : List ℕ) : List Event :=
  (List.range (min C 10)).map fun i =>
    .printMsg ("category: " ++ categories.getD i "" ++ " predictions: "
      ++ Nat.repr (hist.getD i 0))

/-- The `except EOFError` handler: `print("Reached end of input")`,
`output.close()`, `break`. -/
def eofStop (st : LoopState) : LoopState :=
  { st with
    events := st.events ++ [.printMsg "Reached end of input"]
    closeCount := st.closeCount + 1 }

/-- Outcome of one pass through the `while True` body. -/
inductive StepOutcome where
  /-- body finished, loop continues. -/
  | next (st : LoopState)
  /-- `EOFError` caught: handler ran and the loop broke (clean stop). -/
  | stopped (st : LoopState)
  /-- some other exception: propagates out of `infer_loop`. -/
  | excn (msg : String) (st : LoopState)
deriving Repr

/-- One pass through the body of the `while True` loop of `infer_loop`,
mirroring the source line by line:
sample pull, model call, `ny.argmax` (which raises `ValueError` on an empty
vector), confidence, output write, `total_predictions += 1`,
`prediction_hist[prediction] += 1` (raising `IndexError` when the class index
is out of range), `conf_tracker.check_confidence`, and when
`total_predictions % stats_interval == 0` the category print loop, the mlops
report block and `conf_tracker.report_confidence`.  An `EOFError` raised
anywhere in the body is caught by the `except EOFError` clause; any other
exception propagates. -/
def loopStep (C interval : ℕ) (b : IterBehavior) (st : LoopState) : StepOutcome :=
  match b.source with
  | .error .eofError => .stopped (eofStop st)
  | .error (.other m) => .excn m st
  | .ok sample =>
    match b.model with
    | .error .eofError => .stopped (eofStop st)
    | .error (.other m) => .excn m st
    | .ok v =>
      if v = [] then .excn "ValueError" st
      else
        let p := argmax v
        let conf := confidenceOf v
        match b.write with
        | .error .eofError => .stopped (eofStop st)
        | .error (.other m) => .excn m st
        | .ok _ =>
          let st1 := { st with
            events := st.events ++ [.writeLine (Nat.repr p ++ "\n")]
            total := st.total + 1 }
          if p < st1.hist.length then
            let st2 := { st1 with
              hist := st1.hist.set p (st1.hist.getD p 0 + 1)
              events := st1.events ++ [.histRecord p] }
            match b.conf with
            | .error .eofError => .stopped (eofStop st2)
            | .error (.other m) => .excn m st2
            | .ok _ =>
              let st3 := { st2 with events := st2.events ++ [.confUpdate conf sample] }
              if interval = 0 then .excn "ZeroDivisionError" st3
              else if st3.total % interval = 0 then
                let st4 := { st3 with events := st3.events ++ printCatsEvents C st3.hist }
                if C ≤ 10 then
                  match b.report with
                  | .error .eofError => .stopped (eofStop st4)
                  | .error (.other m) => .excn m st4
                  | .ok _ =>
                    .next { st4 with events := st4.events ++ [.reportEmit st4.hist st4.total] }
                else .excn "IndexError" st4
              else .next st3
          else .excn "IndexError" st1

/-- Result of running the loop against a finite oracle script. -/
inductive RunResult where
  /-- loop broke out of the `except EOFError` handler (normal termination). -/
  | finished (st : LoopState)
  /-- an exception other than `EOFError` propagated (abnormal termination). -/
  | aborted (msg : String) (st : LoopState)
  /-- the script was exhausted with the loop still running. -/
  | outOfFuel (st : LoopState)
deriving Repr

/-- The `while True` loop, consuming one oracle entry per iteration. -/
def runLoop (C interval : ℕ) : List IterBehavior → LoopState → RunResult
  | [], st => .outOfFuel st
  | b :: bs, st =>
    match loopStep C interval b st with
    | .next st' => runLoop C interval bs st'
    | .stopped st' => .finished st'
    | .excn m st' => .aborted m st'

/-- State after `output = open(output_file, "w")` and the statistics
initialisation: zero predictions, `prediction_hist` of
`model.get_num_categories()` zeros, sink open, nothing yet observed. -/
def initState (C : ℕ) : LoopState :=
  { total := 0, hist := List.replicate C 0, closeCount := 0, events := [] }

/-- `infer_loop(model, input, output_file, stats_interval, conf_tracker)`
with `C = model.get_num_categories()`, run against an oracle script. -/
def inferLoop (C interval : ℕ) (script : List IterBehavior) : RunResult :=
  runLoop C interval script (initState C)

/-- Final state of a step outcome. -/
def StepOutcome.state : StepOutcome → LoopState
  | .next st => st
  | .stopped st => st
  | .excn _ st => st

/-- Did the step end in the `except EOFError` handler? -/
def StepOutcome.isStopped : StepOutcome → Bool
  | .stopped _ => true
  | _ => false

/-- Final state of a run. -/
def RunResult.state : RunResult → LoopState
  | .finished st => st
  | .aborted _ st => st
  | .outOfFuel st => st

/-- Did the run end by a propagated exception? -/
def RunResult.isAborted : RunResult → Bool
  | .aborted _ _ => true
  | _ => false

/-- Did the run end by the clean end-of-stream path? -/
def RunResult.isFinished : RunResult → Bool
  | .finished _ => true
  | _ => false

/-- The message of the propagated exception, if any. -/
def RunResult.abortMsg : RunResult → Option String
  | .aborted m _ => some m
  | _ => none

/-- The lines written to the output sink, in order. -/
def lines (evs : List Event) : List String :=
  evs.filterMap fun e => match e with
    | .writeLine s => some s
    | _ => none

/-- Number of aggregate reports emitted so far. -/
def countReports (evs : List Event) : ℕ :=
  (evs.filter fun e => match e with
    | .reportEmit _ _ => true
    | _ => false).length

/-- All states the run passes through: the initial state, the state after each
completed iteration, and the final state. -/
def runTrace (C interval : ℕ) : List IterBehavior → LoopState → List LoopState
  | [], st => [st]
  | b :: bs, st =>
    st :: match loopStep C interval b st with
    | .next st' => runTrace C interval bs st'
    | .stopped st' => [st']
    | .excn _ st' => [st']

/-- Oracle entry for a fully successful iteration: the source yields a sample,
the model answers with vector `v`, and every collaborator call succeeds. -/
def okStep (v : List ℚ) : IterBehavior :=
  { source := .ok 0, model := .ok v, write := .ok (), conf := .ok (), report := .ok () }

/-- Oracle entry whose sample pull raises `EOFError` (end of stream). -/
def eofStep : IterBehavior :=
  { source := .error .eofError, model := .ok [], write := .ok (), conf := .ok (),
    report := .ok () }

/-- Oracle entry whose model call fails with a non-`EOFError` exception. -/
def badModelStep : IterBehavior :=
  { source := .ok 0, model := .error (.other "ModelError"), write := .ok (),
    conf := .ok (), report := .ok () }

/-- State of a fully successful iteration starting from `st`: counters and
histogram updated, the write/record/confidence events appended, and — exactly
when the new total is a multiple of `interval` — the category print lines and
one aggregate report appended. -/
def goodNext (C interval sample : ℕ) (v : List ℚ) (st : LoopState) : LoopState :=
  let p := argmax v
  let hist1 := st.hist.set p (st.hist.getD p 0 + 1)
  let evs := st.events ++ [.writeLine (Nat.repr p ++ "\n"), .histRecord p,
    .confUpdate (confidenceOf v) sample]
  if (st.total + 1) % interval = 0 then
    { total := st.total + 1, hist := hist1, closeCount := st.closeCount,
      events := evs ++ printCatsEvents C hist1 ++ [.reportEmit hist1 (st.total + 1)] }
  else
    { total := st.total + 1, hist := hist1, closeCount := st.closeCount, events := evs }

/-- State right after the output write and `total_predictions += 1` of an
iteration that got that far. -/
def stAfterWrite (v : List ℚ) (st : LoopState) : LoopState :=
  { st with
    total := st.total + 1
    events := st.events ++ [.writeLine (Nat.repr (argmax v) ++ "\n")] }

/-- State right after a successful `prediction_hist[prediction] += 1`. -/
def stAfterRecord (v : List ℚ) (st : LoopState) : LoopState :=
  { st with
    total := st.total + 1
    hist := st.hist.set (argmax v) (st.hist.getD (argmax v) 0 + 1)
    events := st.events ++ [.writeLine (Nat.repr (argmax v) ++ "\n"),
      .histRecord (argmax v)] }

/-- State right after a successful `conf_tracker.check_confidence(...)`. -/
def stAfterConf (sample : ℕ) (v : List ℚ) (st : LoopState) : LoopState :=
  { stAfterRecord v st with
    events := (stAfterRecord v st).events ++ [.confUpdate (confidenceOf v) sample] }

/-- State after the category print loop of a report boundary (all lines when
`C ≤ 10`, the first ten before `categories[i]` raises when `10 < C`). -/
def stAtReport (C sample : ℕ) (v : List ℚ) (st : LoopState) : LoopState :=
  { stAfterConf sample v st with
    events := (stAfterConf sample v st).events
      ++ printCatsEvents C (stAfterRecord v st).hist }

/-- Did the step end in a propagated exception? -/
def StepOutcome.isExcn : StepOutcome → Bool
  | .excn _ _ => true
  | _ => false

/-- Oracle entry whose `conf_tracker.check_confidence` call raises `EOFError`. -/
def eofConfStep : IterBehavior :=
  { source := .ok 0, model := .ok [1], write := .ok (), conf := .error .eofError,
    report := .ok () }

/-- The spec scenario script: three samples, then end-of-stream.  The three
model answers put all mass on classes 0, 1 and 2 respectively. -/
def threeSampleScript : List IterBehavior :=
  [okStep [1, 0, 0, 0, 0, 0, 0, 0, 0, 0], okStep [0, 1, 0, 0, 0, 0, 0, 0, 0, 0],
   okStep [0, 0, 1, 0, 0, 0, 0, 0, 0, 0], eofStep]

theorem argmaxAux_spec (xs : List ℚ) : ∀ (bv : ℚ) (bi i : ℕ),
    (argmaxAux bv bi i xs = bi ∧ ∀ k, k < xs.length → xs.getD k 0 ≤ bv)
    ∨ (∃ k, k < xs.length ∧ argmaxAux bv bi i xs = i + k ∧ bv < xs.getD k 0
        ∧ (∀ j, j < k → xs.getD j 0 < xs.getD k 0)
        ∧ (∀ j, j < xs.length → xs.getD j 0 ≤ xs.getD k 0)) := by
  induction xs with
  | nil => intro bv bi i; left; exact ⟨rfl, by simp⟩
  | cons x xs ih =>
    intro bv bi i
    by_cases hx : bv < x
    · rcases ih x i (i + 1) with ⟨hr, hall⟩ | ⟨k, hk, hr, hgt, hfirst, hmax⟩
      · right
        refine ⟨0, by simp, ?_, by simpa using hx, ?_, ?_⟩
        · simp only [argmaxAux, if_pos hx, hr]; omega
        · intro j hj; omega
        · intro j hj
          match j with
          | 0 => simp
          | j + 1 =>
            simp only [List.getD_cons_succ, List.getD_cons_zero]
            exact hall j (by simpa using hj)
      · right
        refine ⟨k + 1, by simpa using hk, ?_, ?_, ?_, ?_⟩
        · simp only [argmaxAux, if_pos hx, hr]; omega
        · simpa using lt_trans hx hgt
        · intro j hj
          match j with
          | 0 => simpa using hgt
          | j + 1 =>
            simp only [List.getD_cons_succ]
            exact hfirst j (by omega)
        · intro j hj
          match j with
          | 0 => simpa using le_of_lt hgt
          | j + 1 =>
            simp only [List.getD_cons_succ]
            exact hmax j (by simpa using hj)
    · rcases ih bv bi (i + 1) with ⟨hr, hall⟩ | ⟨k, hk, hr, hgt, hfirst, hmax⟩
      · left
        refine ⟨?_, ?_⟩
        · simp only [argmaxAux, if_neg hx, hr]
        · intro j hj
          match j with
          | 0 => simpa using le_of_not_lt hx
          | j + 1 =>
            simp only [List.getD_cons_succ]
            exact hall j (by simpa using hj)
      · right
        refine ⟨k + 1, by simpa using hk, ?_, ?_, ?_, ?_⟩
        · simp only [argmaxAux, if_neg hx, hr]; omega
        · simpa using hgt
        · intro j hj
          match j with
          | 0 => simpa using lt_of_le_of_lt (le_of_not_lt hx) hgt
          | j + 1 =>
            simp only [List.getD_cons_succ]
            exact hfirst j (by omega)
        · intro j hj
          match j with
          | 0 => simpa using le_of_lt (lt_of_le_of_lt (le_of_not_lt hx) hgt)
          | j + 1 =>
            simp only [List.getD_cons_succ]
            exact hmax j (by simpa using hj)

theorem argmax_first_max (v : List ℚ) (hv : v ≠ []) :
    argmax v < v.length
    ∧ (∀ j, j < v.length → v.getD j 0 ≤ v.getD (argmax v) 0)
    ∧ (∀ j, j < argmax v → v.getD j 0 < v.getD (argmax v) 0) := by
  match v with
  | x :: xs =>
    simp only [argmax]
    rcases argmaxAux_spec xs x 0 1 with ⟨hr, hall⟩ | ⟨k, hk, hr, hgt, hfirst, hmax⟩
    · rw [hr]
      refine ⟨by simp, ?_, ?_⟩
      · intro j hj
        match j with
        | 0 => simp
        | j + 1 =>
          simp only [List.getD_cons_succ, List.getD_cons_zero]
          exact hall j (by simpa using hj)
      · intro j hj; omega
    · rw [hr]
      have hidx : (x :: xs).getD (1 + k) 0 = xs.getD k 0 := by
        have h1 : 1 + k = k + 1 := by omega
        rw [h1, List.getD_cons_succ]
      refine ⟨by simp only [List.length_cons]; omega, ?_, ?_⟩
      · intro j hj
        rw [hidx]
        match j with
        | 0 => simpa using le_of_lt hgt
        | j + 1 =>
          simp only [List.getD_cons_succ]
          exact hmax j (by simpa using hj)
      · intro j hj
        rw [hidx]
        match j with
        | 0 => simpa using hgt
        | j + 1 =>
          simp only [List.getD_cons_succ]
          exact hfirst j (by omega)

theorem loopStep_closeCount (C interval : ℕ) (b : IterBehavior) (st : LoopState) :
    (loopStep C interval b st).state.closeCount
      = st.closeCount + (if (loopStep C interval b st).isStopped = true then 1 else 0) := by
  simp only [loopStep]
  repeat' split
  all_goals try simp [eofStop, StepOutcome.state, StepOutcome.isStopped]
  all_goals simp_all [StepOutcome.isStopped]

theorem getD_set_incr (l : List ℕ) (p i : ℕ) :
    l.getD i 0 ≤ (l.set p (l.getD p 0 + 1)).getD i 0 := by
  induction l generalizing p i with
  | nil => simp
  | cons x xs ih =>
    match p, i with
    | 0, 0 => simp
    | 0, i + 1 => simp
    | p + 1, 0 => simp
    | p + 1, i + 1 => simpa using ih p i

theorem getD_set_incr' (l : List ℕ) (p i : ℕ) :
    l[i]?.getD 0 ≤ (l.set p (l[p]?.getD 0 + 1))[i]?.getD 0 := by
  have h := getD_set_incr l p i
  simpa [List.getD] using h

theorem loopStep_hist_mono (C interval : ℕ) (b : IterBehavior) (st : LoopState) (i : ℕ) :
    st.hist.getD i 0 ≤ (loopStep C interval b st).state.hist.getD i 0 := by
  simp only [loopStep]
  repeat' split
  all_goals simp [eofStop, StepOutcome.state, getD_set_incr']

theorem loopStep_good (C interval : ℕ) (b : IterBehavior) (st : LoopState)
    (sample : ℕ) (v : List ℚ)
    (hsrc : b.source = .ok sample) (hmod : b.model = .ok v) (hv : v ≠ [])
    (hwr : b.write = .ok ()) (hcf : b.conf = .ok ()) (hrp : b.report = .ok ())
    (hp : argmax v < st.hist.length) (hC : C ≤ 10) (hiv : interval ≠ 0) :
    loopStep C interval b st = .next (goodNext C interval sample v st) := by
  simp only [loopStep, hsrc, hmod, hwr, hcf, hrp, if_neg hv, if_pos hp, if_neg hiv, goodNext]
  split <;> simp [List.append_assoc]

theorem loopStep_eof_source (C interval : ℕ) (b : IterBehavior) (st : LoopState)
    (hsrc : b.source = .error .eofError) :
    loopStep C interval b st = .stopped (eofStop st) := by
  simp [loopStep, hsrc]

theorem loopStep_eof_model (C interval : ℕ) (b : IterBehavior) (st : LoopState)
    (sample : ℕ) (hsrc : b.source = .ok sample) (hmod : b.model = .error .eofError) :
    loopStep C interval b st = .stopped (eofStop st) := by
  simp [loopStep, hsrc, hmod]

theorem loopStep_eof_write (C interval : ℕ) (b : IterBehavior) (st : LoopState)
    (sample : ℕ) (v : List ℚ) (hsrc : b.source = .ok sample) (hmod : b.model = .ok v)
    (hv : v ≠ []) (hwr : b.write = .error .eofError) :
    loopStep C interval b st = .stopped (eofStop st) := by
  simp [loopStep, hsrc, hmod, hwr, if_neg hv]

theorem loopStep_eof_conf (C interval : ℕ) (b : IterBehavior) (st : LoopState)
    (sample : ℕ) (v : List ℚ) (hsrc : b.source = .ok sample) (hmod : b.model = .ok v)
    (hv : v ≠ []) (hwr : b.write = .ok ()) (hp : argmax v < st.hist.length)
    (hcf : b.conf = .error .eofError) :
    loopStep C interval b st = .stopped (eofStop (stAfterRecord v st)) := by
  simp only [loopStep, hsrc, hmod, hwr, hcf, if_neg hv, if_pos hp, stAfterRecord, eofStop]
  simp [List.append_assoc]

theorem loopStep_eof_report (C interval : ℕ) (b : IterBehavior) (st : LoopState)
    (sample : ℕ) (v : List ℚ) (hsrc : b.source = .ok sample) (hmod : b.model = .ok v)
    (hv : v ≠ []) (hwr : b.write = .ok ()) (hp : argmax v < st.hist.length)
    (hcf : b.conf = .ok ()) (hiv : interval ≠ 0) (hcad : (st.total + 1) % interval = 0)
    (hC : C ≤ 10) (hrp : b.report = .error .eofError) :
    loopStep C interval b st = .stopped (eofStop (stAtReport C sample v st)) := by
  simp only [loopStep, hsrc, hmod, hwr, hcf, hrp, if_neg hv, if_pos hp, if_neg hiv,
    stAtReport, stAfterConf, stAfterRecord, eofStop]
  simp [hcad, hC, List.append_assoc]

theorem loopStep_err_source (C interval : ℕ) (b : IterBehavior) (st : LoopState)
    (m : String) (hsrc : b.source = .error (.other m)) :
    loopStep C interval b st = .excn m st := by
  simp [loopStep, hsrc]

theorem loopStep_err_model (C interval : ℕ) (b : IterBehavior) (st : LoopState)
    (sample : ℕ) (m : String) (hsrc : b.source = .ok sample)
    (hmod : b.model = .error (.other m)) :
    loopStep C interval b st = .excn m st := by
  simp [loopStep, hsrc, hmod]

theorem sum_set_incr (l : List ℕ) (p : ℕ) (hp : p < l.length) :
    (l.set p (l.getD p 0 + 1)).sum = l.sum + 1 := by
  induction l generalizing p with
  | nil => simp at hp
  | cons x xs ih =>
    match p with
    | 0 => simp [List.sum_cons]; omega
    | p + 1 =>
      simp only [List.getD_cons_succ, List.set_cons_succ, List.sum_cons,
        ih p (by simpa using hp)]
      omega

theorem sum_set_incr' (l : List ℕ) (p : ℕ) (hp : p < l.length) :
    (l.set p (l[p]?.getD 0 + 1)).sum = l.sum + 1 := by
  have h := sum_set_incr l p hp
  simpa [List.getD] using h

theorem sum_set_getElem_incr (l : List ℕ) (p : ℕ) (hp : p < l.length) :
    (l.set p (l[p] + 1)).sum = l.sum + 1 := by
  have hd : l.getD p 0 = l[p] := by
    simp [List.getD, List.getElem?_eq_getElem hp]
  have h := sum_set_incr l p hp
  rwa [hd] at h

theorem loopStep_sum (C interval : ℕ) (b : IterBehavior) (st : LoopState)
    (hinv : st.hist.sum = st.total) :
    (loopStep C interval b st).isExcn = false →
    (loopStep C interval b st).state.hist.sum = (loopStep C interval b st).state.total := by
  simp only [loopStep]
  repeat' split
  all_goals try simp [eofStop, StepOutcome.isExcn, StepOutcome.state, hinv]
  all_goals simp_all [sum_set_getElem_incr]

theorem runLoop_closeCount (C interval : ℕ) : ∀ (script : List IterBehavior) (st : LoopState),
    (runLoop C interval script st).state.closeCount
      = st.closeCount + (if (runLoop C interval script st).isFinished = true then 1 else 0) := by
  intro script
  induction script with
  | nil => intro st; simp [runLoop, RunResult.isFinished, RunResult.state]
  | cons b bs ih =>
    intro st
    have h := loopStep_closeCount C interval b st
    cases hstep : loopStep C interval b st with
    | next st' =>
      rw [hstep] at h
      simp only [StepOutcome.state, StepOutcome.isStopped, if_neg, Bool.false_eq_true,
        ite_false] at h
      simp only [runLoop, hstep]
      rw [ih st', h]
      simp
    | stopped st' =>
      rw [hstep] at h
      simp only [StepOutcome.state, StepOutcome.isStopped, ite_true] at h
      simp [runLoop, hstep, RunResult.state, RunResult.isFinished, h]
    | excn m st' =>
      rw [hstep] at h
      simp only [StepOutcome.state, StepOutcome.isStopped, Bool.false_eq_true,
        ite_false] at h
      simp [runLoop, hstep, RunResult.state, RunResult.isFinished, h]

theorem runTrace_head (C interval : ℕ) (script : List IterBehavior) (st : LoopState) :
    (runTrace C interval script st).head? = some st := by
  cases script <;> simp [runTrace]

theorem runTrace_hist_mono (C interval : ℕ) : ∀ (script : List IterBehavior) (st : LoopState),
    List.Chain' (fun a c => ∀ i, a.hist.getD i 0 ≤ c.hist.getD i 0)
      (runTrace C interval script st) := by
  intro script
  induction script with
  | nil => intro st; simp [runTrace]
  | cons b bs ih =>
    intro st
    cases hstep : loopStep C interval b st with
    | next st' =>
      have hmono : ∀ i, st.hist.getD i 0 ≤ st'.hist.getD i 0 := by
        intro i
        have h := loopStep_hist_mono C interval b st i
        rwa [hstep] at h
      simp only [runTrace, hstep]
      rw [List.chain'_cons']
      refine ⟨?_, ih st'⟩
      intro y hy
      rw [runTrace_head] at hy
      cases hy
      exact hmono
    | stopped st' =>
      have hmono : ∀ i, st.hist.getD i 0 ≤ st'.hist.getD i 0 := by
        intro i
        have h := loopStep_hist_mono C interval b st i
        rwa [hstep] at h
      simp only [runTrace, hstep]
      exact List.chain'_cons.mpr ⟨hmono, List.chain'_singleton st'⟩
    | excn m st' =>
      have hmono : ∀ i, st.hist.getD i 0 ≤ st'.hist.getD i 0 := by
        intro i
        have h := loopStep_hist_mono C interval b st i
        rwa [hstep] at h
      simp only [runTrace, hstep]
      exact List.chain'_cons.mpr ⟨hmono, List.chain'_singleton st'⟩

theorem runTrace_sum_inv (C interval : ℕ) : ∀ (script : List IterBehavior) (st : LoopState),
    st.hist.sum = st.total →
    (runLoop C interval script st).isAborted = false →
    ∀ s ∈ runTrace C interval script st, s.hist.sum = s.total := by
  intro script
  induction script with
  | nil =>
    intro st hinv _ s hs
    simp [runTrace] at hs
    rwa [hs]
  | cons b bs ih =>
    intro st hinv hab s hs
    cases hstep : loopStep C interval b st with
    | next st' =>
      have hinv' : st'.hist.sum = st'.total := by
        have h := loopStep_sum C interval b st hinv
        rw [hstep] at h
        simpa [StepOutcome.isExcn, StepOutcome.state] using h
      have hab' : (runLoop C interval bs st').isAborted = false := by
        rw [runLoop, hstep] at hab
        exact hab
      simp only [runTrace, hstep, List.mem_cons] at hs
      rcases hs with hs | hs
      · rwa [hs]
      · exact ih st' hinv' hab' s hs
    | stopped st' =>
      have hinv' : st'.hist.sum = st'.total := by
        have h := loopStep_sum C interval b st hinv
        rw [hstep] at h
        simpa [StepOutcome.isExcn, StepOutcome.state] using h
      simp only [runTrace, hstep, List.mem_cons, List.not_mem_nil, or_false] at hs
      rcases hs with hs | hs
      · rwa [hs]
      · rwa [hs]
    | excn m st' =>
      rw [runLoop, hstep] at hab
      simp [RunResult.isAborted] at hab

theorem countReports_append (a b : List Event) :
    countReports (a ++ b) = countReports a + countReports b := by
  simp [countReports, List.filter_append]

theorem countReports_printCats (C : ℕ) (h : List ℕ) :
    countReports (printCatsEvents C h) = 0 := by
  simp only [countReports, printCatsEvents, List.filter_map]
  simp [Function.comp]

theorem lines_append (a b : List Event) : lines (a ++ b) = lines a ++ lines b := by
  simp [lines, List.filterMap_append]

theorem lines_printCats (C : ℕ) (h : List ℕ) : lines (printCatsEvents C h) = [] := by
  simp only [lines, printCatsEvents, List.filterMap_map]
  simp [Function.comp]

theorem getD_set_self (l : List ℕ) (p : ℕ) (hp : p < l.length) (x : ℕ) :
    (l.set p x).getD p 0 = x := by
  induction l generalizing p with
  | nil => simp at hp
  | cons a as ih =>
    match p with
    | 0 => simp
    | p + 1 => simpa using ih p (by simpa using hp)

theorem getD_set_other (l : List ℕ) (p j x : ℕ) (h : j ≠ p) :
    (l.set p x).getD j 0 = l.getD j 0 := by
  induction l generalizing p j with
  | nil => simp
  | cons a as ih =>
    match p, j with
    | 0, 0 => exact absurd rfl h
    | 0, j + 1 => simp
    | p + 1, 0 => simp
    | p + 1, j + 1 => simpa using ih p j (by omega)

theorem loopStep_hist_set (C interval : ℕ) (b : IterBehavior) (st : LoopState)
    (sample : ℕ) (v : List ℚ) (hsrc : b.source = .ok sample) (hmod : b.model = .ok v)
    (hv : v ≠ []) (hwr : b.write = .ok ()) (hp : argmax v < st.hist.length) :
    (loopStep C interval b st).state.hist
      = st.hist.set (argmax v) (st.hist.getD (argmax v) 0 + 1) := by
  simp only [loopStep, hsrc, hmod, hwr, if_neg hv, if_pos hp]
  repeat' split
  all_goals simp [StepOutcome.state, eofStop]

theorem loopStep_record_oob (C interval : ℕ) (b : IterBehavior) (st : LoopState)
    (sample : ℕ) (v : List ℚ) (hsrc : b.source = .ok sample) (hmod : b.model = .ok v)
    (hv : v ≠ []) (hwr : b.write = .ok ()) (hp : ¬ argmax v < st.hist.length) :
    loopStep C interval b st = .excn "IndexError" (stAfterWrite v st) := by
  simp only [loopStep, hsrc, hmod, hwr, if_neg hv, if_neg hp, stAfterWrite]

theorem loopStep_report_oob (C interval : ℕ) (b : IterBehavior) (st : LoopState)
    (sample : ℕ) (v : List ℚ) (hsrc : b.source = .ok sample) (hmod : b.model = .ok v)
    (hv : v ≠ []) (hwr : b.write = .ok ()) (hcf : b.conf = .ok ())
    (hp : argmax v < st.hist.length) (hiv : interval ≠ 0)
    (hcad : (st.total + 1) % interval = 0) (hC : 10 < C) :
    loopStep C interval b st = .excn "IndexError" (stAtReport C sample v st) := by
  simp only [loopStep, hsrc, hmod, hwr, hcf, if_neg hv, if_pos hp, if_neg hiv,
    stAtReport, stAfterConf, stAfterRecord]
  simp [hcad, Nat.not_le.mpr hC, List.append_assoc]

/-- C1 counterexample: a run in which the model raises a non-`EOFError`
exception terminates abnormally with `output.close()` never executed
(`closeCount = 0`), refuting the claim that the sink is closed exactly once
on abnormal termination. -/
theorem C1_counterexample :
    (inferLoop 10 100 [badModelStep]).isAborted = true
    ∧ (inferLoop 10 100 [badModelStep]).state.closeCount = 0 := by
  constructor <;> rfl

/-- C1 (amended): the output sink is closed exactly once when the inference
loop terminates normally on end-of-stream; when it terminates abnormally
because a non-`EOFError` exception propagates out of the loop, the loop does
not close the sink (`output.close()` is reached only inside the
`except EOFError` handler — there is no scoped acquisition). -/
theorem C1_close_on_termination (C interval : ℕ) (script : List IterBehavior) :
    ((inferLoop C interval script).isFinished = true →
      (inferLoop C interval script).state.closeCount = 1)
    ∧ ((inferLoop C interval script).isAborted = true →
      (inferLoop C interval script).state.closeCount = 0) := by
  have h := runLoop_closeCount C interval script (initState C)
  cases hres : runLoop C interval script (initState C) with
  | finished st =>
    rw [hres] at h
    simp only [RunResult.state, RunResult.isFinished, if_pos, initState] at h
    constructor
    · intro _
      simp only [inferLoop, hres, RunResult.state]
      simpa using h
    · intro ha
      rw [inferLoop, hres] at ha
      simp [RunResult.isAborted] at ha
  | aborted m st =>
    rw [hres] at h
    simp only [RunResult.state, RunResult.isFinished, Bool.false_eq_true, ite_false,
      initState] at h
    constructor
    · intro hf
      rw [inferLoop, hres] at hf
      simp [RunResult.isFinished] at hf
    · intro _
      simp only [inferLoop, hres, RunResult.state]
      simpa using h
  | outOfFuel st =>
    constructor
    · intro hf
      rw [inferLoop, hres] at hf
      simp [RunResult.isFinished] at hf
    · intro ha
      rw [inferLoop, hres] at ha
      simp [RunResult.isAborted] at ha

/-- Witness for C1 (amended) at a concrete input: a one-entry script that hits
end-of-stream immediately finishes normally with the sink closed once. -/
theorem C1_close_on_termination_witness :
    (inferLoop 10 100 [eofStep]).isFinished = true
    ∧ (inferLoop 10 100 [eofStep]).state.closeCount = 1 :=
  ⟨rfl, (C1_close_on_termination 10 100 [eofStep]).1 rfl⟩

/-- C2: for every nonempty probability vector returned by the model, the
driver's `predicted_class` is the argmax with ties broken by the lowest index
(the returned index is in range, its entry is maximal, and every entry before
it is strictly smaller), and its `confidence` is the vector entry at
`predicted_class` multiplied by 100; in particular on
`[0.05, 0.9, 0.05, 0, 0, 0, 0, 0, 0, 0]` it yields `predicted_class = 1` and
`confidence = 90`. -/
theorem C2_argmax_confidence :
    (∀ v : List ℚ, v ≠ [] →
      argmax v < v.length
      ∧ (∀ j, j < v.length → v.getD j 0 ≤ v.getD (argmax v) 0)
      ∧ (∀ j, j < argmax v → v.getD j 0 < v.getD (argmax v) 0)
      ∧ confidenceOf v = v.getD (argmax v) 0 * 100)
    ∧ argmax [0.05, 0.9, 0.05, 0, 0, 0, 0, 0, 0, 0] = 1
    ∧ confidenceOf [0.05, 0.9, 0.05, 0, 0, 0, 0, 0, 0, 0] = 90 := by
  refine ⟨?_, ?_, ?_⟩
  · intro v hv
    obtain ⟨h1, h2, h3⟩ := argmax_first_max v hv
    exact ⟨h1, h2, h3, rfl⟩
  · norm_num [argmax, argmaxAux]
  · norm_num [confidenceOf, argmax, argmaxAux]

/-- Witness for C2 at a concrete input: the singleton vector `[1]` is nonempty
and its predicted class is the in-range index 0. -/
theorem C2_argmax_confidence_witness :
    ([(1 : ℚ)] ≠ []) ∧ argmax [(1 : ℚ)] < List.length [(1 : ℚ)] := by
  have hv : ([(1 : ℚ)] : List ℚ) ≠ [] := by simp
  exact ⟨hv, (C2_argmax_confidence.1 [(1 : ℚ)] hv).1⟩

/-- C3: for a fully successful iteration (positive `stats_interval`, class in
range, at most ten categories), the processed count goes up by one and an
aggregate report is emitted by this iteration if and only if the new
cumulative count is an exact multiple of `stats_interval` — a hard modulus
check on processed records (the model has no notion of time). -/
theorem C3_report_cadence (C interval sample : ℕ) (v : List ℚ) (b : IterBehavior)
    (st : LoopState) (hsrc : b.source = .ok sample) (hmod : b.model = .ok v)
    (hv : v ≠ []) (hwr : b.write = .ok ()) (hcf : b.conf = .ok ())
    (hrp : b.report = .ok ()) (hp : argmax v < st.hist.length) (hC : C ≤ 10)
    (hiv : 0 < interval) :
    ∃ st', loopStep C interval b st = .next st'
      ∧ st'.total = st.total + 1
      ∧ countReports st'.events
          = countReports st.events + (if st'.total % interval = 0 then 1 else 0) := by
  refine ⟨goodNext C interval sample v st,
    loopStep_good C interval b st sample v hsrc hmod hv hwr hcf hrp hp hC (by omega),
    ?_, ?_⟩
  · unfold goodNext
    split <;> rfl
  · have htot : (goodNext C interval sample v st).total = st.total + 1 := by
      unfold goodNext
      split <;> rfl
    rw [htot]
    unfold goodNext
    by_cases hcad : (st.total + 1) % interval = 0
    · rw [if_pos hcad, if_pos hcad]
      simp only [countReports_append, countReports_printCats]
      simp [countReports]
    · rw [if_neg hcad, if_neg hcad]
      simp only [countReports_append]
      simp [countReports]

/-- Witness for C3 at a concrete input: one successful step with interval 5
from the initial state emits no report (1 is not a multiple of 5). -/
theorem C3_report_cadence_witness :
    (okStep [(1 : ℚ)]).source = Except.ok 0
    ∧ ∃ st', loopStep 10 5 (okStep [(1 : ℚ)]) (initState 10) = .next st'
      ∧ st'.total = (initState 10).total + 1
      ∧ countReports st'.events
          = countReports (initState 10).events + (if st'.total % 5 = 0 then 1 else 0) :=
  ⟨rfl, C3_report_cadence 10 5 0 [(1 : ℚ)] (okStep [(1 : ℚ)]) (initState 10)
    rfl rfl (by simp) rfl rfl rfl (by decide) (by decide) (by decide)⟩

/-- C4: end-of-stream from the source terminates the loop cleanly (a
`finished` result, not an abort), closes the sink, and emits no report for
the partial interval; in particular three samples then end-of-stream with
`stats_interval = 100` give exactly 3 predictions, zero reports, exactly the
three lines "0", "1", "2" (newline-terminated) in the output sink, and a
closed sink. -/
theorem C4_eof_terminates_cleanly (C interval : ℕ) (b : IterBehavior)
    (bs : List IterBehavior) (st : LoopState) (hsrc : b.source = .error .eofError) :
    (runLoop C interval (b :: bs) st = .finished (eofStop st)
      ∧ countReports (eofStop st).events = countReports st.events
      ∧ (eofStop st).closeCount = st.closeCount + 1)
    ∧ ((inferLoop 10 100 threeSampleScript).isFinished = true
      ∧ (inferLoop 10 100 threeSampleScript).state.total = 3
      ∧ countReports (inferLoop 10 100 threeSampleScript).state.events = 0
      ∧ lines (inferLoop 10 100 threeSampleScript).state.events = ["0\n", "1\n", "2\n"]
      ∧ (inferLoop 10 100 threeSampleScript).state.closeCount = 1) := by
  constructor
  · have hstep := loopStep_eof_source C interval b st hsrc
    refine ⟨by simp [runLoop, hstep], ?_, by simp [eofStop]⟩
    simp [eofStop, countReports_append, countReports]
  · exact ⟨by decide, by decide, by decide, by decide, by decide⟩

/-- Witness for C4 at a concrete input: the one-entry end-of-stream script. -/
theorem C4_eof_terminates_cleanly_witness :
    eofStep.source = Except.error PyErr.eofError
    ∧ runLoop 10 100 [eofStep] (initState 10) = .finished (eofStop (initState 10)) :=
  ⟨rfl, ((C4_eof_terminates_cleanly 10 100 eofStep [] (initState 10) rfl).1).1⟩

/-- C5: along every run, the per-class histogram counts are monotonically
non-decreasing from each state to the next (the histogram is never reset),
and — for runs that do not abort — every state the run passes through
satisfies `sum(counts) = total predictions processed so far`. -/
theorem C5_histogram_invariant (C interval : ℕ) (script : List IterBehavior) :
    List.Chain' (fun a c => ∀ i, a.hist.getD i 0 ≤ c.hist.getD i 0)
      (runTrace C interval script (initState C))
    ∧ ((inferLoop C interval script).isAborted = false →
      ∀ s ∈ runTrace C interval script (initState C), s.hist.sum = s.total) := by
  constructor
  · exact runTrace_hist_mono C interval script (initState C)
  · intro hab
    exact runTrace_sum_inv C interval script (initState C) (by simp [initState]) hab

/-- Witness for C5 at a concrete input: the empty script does not abort, and
the initial state (which the trace contains) satisfies the sum invariant. -/
theorem C5_histogram_invariant_witness :
    (inferLoop 10 100 ([] : List IterBehavior)).isAborted = false
    ∧ (initState 10).hist.sum = (initState 10).total :=
  ⟨rfl, (C5_histogram_invariant 10 100 []).2 rfl (initState 10) (by simp [runTrace])⟩

/-- C6: when the predicted class is in range `0..C-1`,
`prediction_hist[prediction] += 1` increments exactly that class's count and
leaves every other class unchanged; when the predicted class is out of range,
the record fails with an indexing error that is not caught by the
`except EOFError` clause, so it propagates out of the loop and aborts the run
(the spec's fatal `InvalidClass` error). -/
theorem C6_record_increments_or_aborts (C interval : ℕ) (b : IterBehavior)
    (bs : List IterBehavior) (st : LoopState) (sample : ℕ) (v : List ℚ)
    (hsrc : b.source = .ok sample) (hmod : b.model = .ok v) (hv : v ≠ [])
    (hwr : b.write = .ok ()) :
    (argmax v < st.hist.length →
      (loopStep C interval b st).state.hist.getD (argmax v) 0
          = st.hist.getD (argmax v) 0 + 1
      ∧ ∀ j, j ≠ argmax v →
          (loopStep C interval b st).state.hist.getD j 0 = st.hist.getD j 0)
    ∧ (st.hist.length ≤ argmax v →
      runLoop C interval (b :: bs) st = .aborted "IndexError" (stAfterWrite v st)) := by
  constructor
  · intro hp
    have hset := loopStep_hist_set C interval b st sample v hsrc hmod hv hwr hp
    rw [hset]
    exact ⟨getD_set_self st.hist (argmax v) hp _,
      fun j hj => getD_set_other st.hist (argmax v) j _ hj⟩
  · intro hp
    have hstep := loopStep_record_oob C interval b st sample v hsrc hmod hv hwr
      (by omega)
    simp [runLoop, hstep]

/-- Witness for C6 at concrete inputs: with ten categories the class predicted
from `[1]` is 0 and its count is incremented; with zero categories the same
prediction is out of range and the run aborts with an indexing error. -/
theorem C6_record_increments_or_aborts_witness :
    (argmax [(1 : ℚ)] < (initState 10).hist.length
      ∧ (loopStep 10 100 (okStep [(1 : ℚ)]) (initState 10)).state.hist.getD
          (argmax [(1 : ℚ)]) 0
        = (initState 10).hist.getD (argmax [(1 : ℚ)]) 0 + 1)
    ∧ ((initState 0).hist.length ≤ argmax [(1 : ℚ)]
      ∧ runLoop 0 100 [okStep [(1 : ℚ)]] (initState 0)
          = .aborted "IndexError" (stAfterWrite [(1 : ℚ)] (initState 0))) :=
  ⟨⟨by decide,
    ((C6_record_increments_or_aborts 10 100 (okStep [(1 : ℚ)]) [] (initState 10) 0
      [(1 : ℚ)] rfl rfl (by simp) rfl).1 (by decide)).1⟩,
   ⟨by decide,
    (C6_record_increments_or_aborts 0 100 (okStep [(1 : ℚ)]) [] (initState 0) 0
      [(1 : ℚ)] rfl rfl (by simp) rfl).2 (by decide)⟩⟩

/-- C7: an error other than `EOFError` raised by the sample source or by the
model is not handled anywhere in the loop: whatever the rest of the input
stream holds, the run immediately ends as `aborted` with that error (no local
recovery). -/
theorem C7_errors_propagate (C interval : ℕ) (b : IterBehavior)
    (bs : List IterBehavior) (st : LoopState) (m : String) (sample : ℕ) :
    (b.source = .error (.other m) →
      runLoop C interval (b :: bs) st = .aborted m st)
    ∧ (b.source = .ok sample → b.model = .error (.other m) →
      runLoop C interval (b :: bs) st = .aborted m st) := by
  constructor
  · intro hsrc
    simp [runLoop, loopStep_err_source C interval b st m hsrc]
  · intro hsrc hmod
    simp [runLoop, loopStep_err_model C interval b st sample m hsrc hmod]

/-- Witness for C7 at a concrete input: the model fails with "ModelError" and
the run aborts with that same error. -/
theorem C7_errors_propagate_witness :
    badModelStep.source = Except.ok 0
    ∧ badModelStep.model = Except.error (PyErr.other "ModelError")
    ∧ runLoop 10 100 [badModelStep] (initState 10)
        = .aborted "ModelError" (initState 10) :=
  ⟨rfl, rfl,
    (C7_errors_propagate 10 100 badModelStep [] (initState 10) "ModelError" 0).2 rfl rfl⟩

theorem lines_single_report (h : List ℕ) (t : ℕ) :
    lines [Event.reportEmit h t] = [] := rfl

theorem lines_whc (s : String) (c : ℕ) (q : ℚ) (n : ℕ) :
    lines [Event.writeLine s, Event.histRecord c, Event.confUpdate q n] = [s] := rfl

theorem lines_cons_write (s : String) (evs : List Event) :
    lines (Event.writeLine s :: evs) = s :: lines evs := rfl

theorem lines_cons_hist (c : ℕ) (evs : List Event) :
    lines (Event.histRecord c :: evs) = lines evs := rfl

theorem lines_cons_conf (q : ℚ) (n : ℕ) (evs : List Event) :
    lines (Event.confUpdate q n :: evs) = lines evs := rfl

theorem lines_nil : lines [] = [] := rfl

/-- C8: a fully successful iteration appends exactly one record to the output
sink — the predicted class rendered as decimal text, newline-terminated —
and that write happens before the histogram record and the confidence-tracker
update; no other event of the iteration writes to the sink, so across a run
the sink's lines appear one per prediction, in processing order. -/
theorem C8_write_order (C interval sample : ℕ) (v : List ℚ) (b : IterBehavior)
    (st : LoopState) (hsrc : b.source = .ok sample) (hmod : b.model = .ok v)
    (hv : v ≠ []) (hwr : b.write = .ok ()) (hcf : b.conf = .ok ())
    (hrp : b.report = .ok ()) (hp : argmax v < st.hist.length) (hC : C ≤ 10)
    (hiv : 0 < interval) :
    ∃ st' rest, loopStep C interval b st = .next st'
      ∧ st'.events = st.events
          ++ Event.writeLine (Nat.repr (argmax v) ++ "\n")
            :: Event.histRecord (argmax v)
            :: Event.confUpdate (confidenceOf v) sample :: rest
      ∧ lines rest = []
      ∧ lines st'.events = lines st.events ++ [Nat.repr (argmax v) ++ "\n"] := by
  have hstep := loopStep_good C interval b st sample v hsrc hmod hv hwr hcf hrp hp hC
    (by omega)
  by_cases hcad : (st.total + 1) % interval = 0
  · refine ⟨goodNext C interval sample v st,
      printCatsEvents C (st.hist.set (argmax v) (st.hist.getD (argmax v) 0 + 1))
        ++ [Event.reportEmit
          (st.hist.set (argmax v) (st.hist.getD (argmax v) 0 + 1)) (st.total + 1)],
      hstep, ?_, ?_, ?_⟩
    · simp [goodNext, if_pos hcad, List.append_assoc]
    · simp [lines_append, lines_printCats, lines_single_report]
    · simp [goodNext, if_pos hcad, lines_append, lines_printCats, lines_single_report,
        lines_cons_write, lines_cons_hist, lines_cons_conf]
  · refine ⟨goodNext C interval sample v st, [], hstep, ?_, ?_, ?_⟩
    · simp [goodNext, if_neg hcad]
    · rfl
    · simp [goodNext, if_neg hcad, lines_append, lines_whc, lines_cons_write,
        lines_cons_hist, lines_cons_conf, lines_nil]

/-- Witness for C8 at a concrete input: one successful step from the initial
state with interval 100. -/
theorem C8_write_order_witness :
    (okStep [(1 : ℚ)]).source = Except.ok 0
    ∧ ∃ st' rest, loopStep 10 100 (okStep [(1 : ℚ)]) (initState 10) = .next st'
      ∧ st'.events = (initState 10).events
          ++ Event.writeLine (Nat.repr (argmax [(1 : ℚ)]) ++ "\n")
            :: Event.histRecord (argmax [(1 : ℚ)])
            :: Event.confUpdate (confidenceOf [(1 : ℚ)]) 0 :: rest
      ∧ lines rest = []
      ∧ lines st'.events
          = lines (initState 10).events ++ [Nat.repr (argmax [(1 : ℚ)]) ++ "\n"] :=
  ⟨rfl, C8_write_order 10 100 0 [(1 : ℚ)] (okStep [(1 : ℚ)]) (initState 10)
    rfl rfl (by simp) rfl rfl rfl (by decide) (by decide) (by decide)⟩

/-- C9 (implicit): the `try` block spans the whole loop body, so an `EOFError`
raised at any call site inside it — the sample pull, the model invocation, the
output-sink write, the confidence-tracker update, or the cadence-boundary
report — makes the run finish cleanly through the `except EOFError` handler:
the completion notice is printed, the sink is closed, and the loop exits. -/
theorem C9_eof_anywhere_clean (C interval : ℕ) (b : IterBehavior)
    (bs : List IterBehavior) (st : LoopState) (sample : ℕ) (v : List ℚ) :
    (b.source = .error .eofError →
      runLoop C interval (b :: bs) st = .finished (eofStop st))
    ∧ (b.source = .ok sample → b.model = .error .eofError →
      runLoop C interval (b :: bs) st = .finished (eofStop st))
    ∧ (b.source = .ok sample → b.model = .ok v → v ≠ [] →
        b.write = .error .eofError →
      runLoop C interval (b :: bs) st = .finished (eofStop st))
    ∧ (b.source = .ok sample → b.model = .ok v → v ≠ [] → b.write = .ok () →
        argmax v < st.hist.length → b.conf = .error .eofError →
      runLoop C interval (b :: bs) st = .finished (eofStop (stAfterRecord v st)))
    ∧ (b.source = .ok sample → b.model = .ok v → v ≠ [] → b.write = .ok () →
        argmax v < st.hist.length → b.conf = .ok () → interval ≠ 0 →
        (st.total + 1) % interval = 0 → C ≤ 10 → b.report = .error .eofError →
      runLoop C interval (b :: bs) st
        = .finished (eofStop (stAtReport C sample v st))) := by
  refine ⟨?_, ?_, ?_, ?_, ?_⟩
  · intro h1
    simp [runLoop, loopStep_eof_source C interval b st h1]
  · intro h1 h2
    simp [runLoop, loopStep_eof_model C interval b st sample h1 h2]
  · intro h1 h2 h3 h4
    simp [runLoop, loopStep_eof_write C interval b st sample v h1 h2 h3 h4]
  · intro h1 h2 h3 h4 h5 h6
    simp [runLoop, loopStep_eof_conf C interval b st sample v h1 h2 h3 h4 h5 h6]
  · intro h1 h2 h3 h4 h5 h6 h7 h8 h9 h10
    simp [runLoop,
      loopStep_eof_report C interval b st sample v h1 h2 h3 h4 h5 h6 h7 h8 h9 h10]

/-- Witness for C9 at a concrete input: `EOFError` from the confidence-tracker
update (not from the source) still ends the run cleanly with the sink
closed. -/
theorem C9_eof_anywhere_clean_witness :
    eofConfStep.conf = Except.error PyErr.eofError
    ∧ runLoop 10 100 [eofConfStep] (initState 10)
        = .finished (eofStop (stAfterRecord [1] (initState 10))) :=
  ⟨rfl, (C9_eof_anywhere_clean 10 100 eofConfStep [] (initState 10) 0
    [1]).2.2.2.1 rfl rfl (by simp) rfl (by decide) rfl⟩

/-- C10 (implicit): the report path indexes the hard-coded ten-element
`categories` list while the histogram is sized by
`model.get_num_categories()`; with more than ten categories, recording the
prediction itself succeeds (the class count is incremented), but the first
cadence-boundary report fails at `categories[10]` with an out-of-range
indexing error that aborts the run. -/
theorem C10_report_overflow (C interval : ℕ) (b : IterBehavior)
    (bs : List IterBehavior) (st : LoopState) (sample : ℕ) (v : List ℚ)
    (hsrc : b.source = .ok sample) (hmod : b.model = .ok v) (hv : v ≠ [])
    (hwr : b.write = .ok ()) (hcf : b.conf = .ok ())
    (hp : argmax v < st.hist.length) (hiv : interval ≠ 0)
    (hcad : (st.total + 1) % interval = 0) (hC : 10 < C) :
    runLoop C interval (b :: bs) st
      = .aborted "IndexError" (stAtReport C sample v st)
    ∧ (stAtReport C sample v st).hist.getD (argmax v) 0
        = st.hist.getD (argmax v) 0 + 1 := by
  constructor
  · have hstep := loopStep_report_oob C interval b st sample v hsrc hmod hv hwr hcf
      hp hiv hcad hC
    simp [runLoop, hstep]
  · simp only [stAtReport, stAfterConf, stAfterRecord]
    exact getD_set_self st.hist (argmax v) hp _

/-- Witness for C10 at a concrete input: eleven categories, interval 1: the
first prediction triggers a report and the run aborts with an indexing
error while the histogram already holds the recorded prediction. -/
theorem C10_report_overflow_witness :
    10 < 11 ∧ ((initState 11).total + 1) % 1 = 0
    ∧ runLoop 11 1 [okStep [(1 : ℚ)]] (initState 11)
        = .aborted "IndexError" (stAtReport 11 0 [(1 : ℚ)] (initState 11)) :=
  ⟨by decide, by decide,
    (C10_report_overflow 11 1 (okStep [(1 : ℚ)]) [] (initState 11) 0 [(1 : ℚ)]
      rfl rfl (by simp) rfl rfl (by decide) (by decide) (by decide) (by decide)).1⟩
